import Mathlib

/-!
Verification of the baked-query caching layer of `lib/sqlalchemy/ext/baked.py`
(class `BakedQuery`, class `Result`, and the subquery-loader bake/unbake pair),
as a shallow embedding in Lean 4.

Modelling conventions:
* Python values that flow into cache keys, discriminator tuples and bound
  parameters are modelled by the inductive `PyVal`; a Python tuple of such
  values is a `List PyVal`.
* Mutable objects that the Python code shares by reference (the statement
  object hanging off a compiled context, the attribute dictionaries, the
  bakery mappings) live in an explicit store (`State`) indexed by `Ref`;
  everything else is a plain value, mirroring the fact that the source never
  mutates those parts in place (`_cache_key` is a tuple, `_clone` copies the
  steps list, `Query.params`/`with_session` are generative).
* A build step is its function object: a source-location identity
  (`co_filename`, `co_firstlineno` of its code object) together with its
  behaviour.  `self.steps` of the source, whose head is applied to a session
  and whose tail is applied to queries, is split into `steps0 : InitStep`
  (the element `steps[0]`) and `steps1 : List Step` (the slice `steps[1:]`).
* Exceptions are modelled with `Except`-style results; state-mutating
  operations return `State × Except Err _` so that a raised exception keeps
  the mutations performed before the raise, exactly as in Python.
-/

namespace BakedSpec

/-- A Python value as it appears in cache keys, discriminators and params. -/
inductive PyVal where
  | str (s : String)
  | int (n : Int)
  | bool (b : Bool)
  | pynone
  deriving DecidableEq

/-- A cache key: the Python code keeps `_cache_key` as a flat tuple. -/
abbrev CacheKey := List PyVal

/-- A session is identified only by its identity. -/
abbrev Session := Nat

/-- A reference into the store of shared mutable objects. -/
abbrev Ref := Nat

/-- The process-wide default bakery, `BakedQuery._global_bakery` (line 17). -/
def globalBakery : Ref := 0

/-- A parameter dictionary, insertion ordered, keys unique by construction
of `Params.update`. -/
abbrev Params := List (String × PyVal)

/-- Store one binding, replacing an existing binding for the key in place
(Python dict assignment). -/
def Params.store (p : Params) (k : String) (v : PyVal) : Params :=
  if p.any (fun kv => kv.1 == k) then
    p.map (fun kv => if kv.1 == k then (k, v) else kv)
  else
    p ++ [(k, v)]

/-- `dict.update`: later writes win for a repeated key. -/
def Params.update (p : Params) (kw : Params) : Params :=
  kw.foldl (fun acc kv => acc.store kv.1 kv.2) p

/-- The exceptions the baked layer raises or propagates. -/
inductive Err where
  | noResultFound
  | multipleResultsFound
  | argumentError
  | keyError
  | fuelOut
  | exc (msg : String)
  deriving DecidableEq

/-- One atom of a WHERE criterion, for the identity-lookup path of
`Result._load_on_ident` (lines 221-262). -/
inductive PredAtom where
  | eqParam (col : String) (pkey : String)
  | isNull (col : String)
  deriving DecidableEq

/-- The slice of ORM `Query` state that the baked layer touches.  `Query`
itself lives outside `src/`; the fields model exactly the operations the
baked code calls on it.  `rows` is the query's denotation: the row sequence
the external execution transport produces for it. -/
structure Query where
  sess : Option Session
  rows : List PyVal
  qparams : Params
  criterion : List PredAtom
  hasOrder : Bool
  scratch : List String
  compiled_cache : Option Ref
  deriving DecidableEq

/-- `Query.with_session`: generative rebinding of the session. -/
def Query.with_session (q : Query) (s : Option Session) : Query :=
  { q with sess := s }

/-- `Query.params`: generative parameter binding (dict update semantics). -/
def Query.paramsUpd (q : Query) (p : Params) : Query :=
  { q with qparams := q.qparams.update p }

/-- Modelled from the spec: `Query.slice(0, 1)` (the ORM method is not under
`src/`); the spec calls it the "limit to first row" step, so it keeps only
the first row of the query's denotation. -/
def Query.sliceFirstRow (q : Query) : Query :=
  { q with rows := q.rows.take 1 }

/-- Modelled from the spec: the external execution transport
(`_execute_and_instances`, not under `src/`) produces the query's row
sequence. -/
def Query.execute (q : Query) : List PyVal :=
  q.rows

/-- The compilation-use-only attributes `_bake` pops from the stored query's
`__dict__` (lines 101-104). -/
def scratchAttrs : List String :=
  ["_correlate", "_from_obj", "_mapper_adapter_map", "_joinpath", "_joinpoint"]

/-- Remove the compilation-use-only attributes from the query's `__dict__`. -/
def Query.popScratch (q : Query) : Query :=
  { q with scratch := q.scratch.filter (fun a => ¬ scratchAttrs.contains a) }

/-- `query._execution_options.union({"compiled_cache": self._bakery})`
(lines 95-97). -/
def Query.withCompiledCache (q : Query) (b : Ref) : Query :=
  { q with compiled_cache := some b }

/-- A build step appended with `add_criteria` / `with_criteria`: a Python
function object, i.e. a source-location identity plus behaviour.  Steps may
raise, hence `Except`. -/
structure Step where
  filename : String
  firstlineno : Int
  run : Query → Except Err Query

/-- The identity token `(fn.func_code.co_filename, fn.func_code.co_firstlineno)`
that `_update_cache_key` appends for a step (lines 42-45). -/
def Step.ident (s : Step) : CacheKey :=
  [.str s.filename, .int s.firstlineno]

/-- The initial step `steps[0]`, applied to a session rather than a query. -/
structure InitStep where
  filename : String
  firstlineno : Int
  run : Session → Except Err Query

/-- Identity token of the initial step. -/
def InitStep.ident (s : InitStep) : CacheKey :=
  [.str s.filename, .int s.firstlineno]

/-- `class BakedQuery` (lines 16-32): `steps0 :: steps1` models `self.steps`,
`bakery` is the shared reference `self._bakery`. -/
structure BakedQuery where
  steps0 : InitStep
  steps1 : List Step
  cacheKey : CacheKey
  bakery : Ref
  spoiled : Bool

/-- `BakedQuery._update_cache_key(fn, args)` (lines 42-45): append the
step's identity token and then its extra discriminator values. -/
def BakedQuery.update_cache_key (b : BakedQuery) (ident args : CacheKey) : BakedQuery :=
  { b with cacheKey := b.cacheKey ++ ident ++ args }

/-- `BakedQuery.__init__(initial_fn, args, bakery)` (lines 21-32): the key
starts as `tuple(args)` and `_update_cache_key(initial_fn)` then appends the
initial step's identity with no extra args; `bakery` defaults to the
process-wide `_global_bakery`. -/
def BakedQuery.mkNew (fn : InitStep) (args : CacheKey) (bakery : Option Ref) : BakedQuery :=
  { steps0 := fn
    steps1 := []
    cacheKey := args ++ fn.ident
    bakery := bakery.getD globalBakery
    spoiled := false }

/-- `BakedQuery._clone` (lines 34-40): copies every field; `list(self.steps)`
makes the pipeline list independent of the original's. -/
def BakedQuery.clone (b : BakedQuery) : BakedQuery :=
  { steps0 := b.steps0
    steps1 := b.steps1
    cacheKey := b.cacheKey
    bakery := b.bakery
    spoiled := b.spoiled }

/-- `BakedQuery.add_criteria(fn, *args)` (lines 60-63): extend the cache key,
append the step, return self. -/
def BakedQuery.add_criteria (b : BakedQuery) (fn : Step) (args : CacheKey) : BakedQuery :=
  let b' := b.update_cache_key fn.ident args
  { b' with steps1 := b'.steps1 ++ [fn] }

/-- `BakedQuery.with_criteria(fn, *args)` (lines 65-66): clone, then
`add_criteria` on the clone. -/
def BakedQuery.with_criteria (b : BakedQuery) (fn : Step) (args : CacheKey) : BakedQuery :=
  b.clone.add_criteria fn args

/-- `BakedQuery.spoil` (lines 74-86). -/
def BakedQuery.spoil (b : BakedQuery) : BakedQuery :=
  { b with spoiled := true }

/-- `BakedQuery._as_query(session)` (lines 107-112): run the initial step on
the session, then fold the remaining steps over the running query. -/
def BakedQuery.as_query (b : BakedQuery) (s : Session) : Except Err Query := do
  let q0 ← b.steps0.run s
  b.steps1.foldlM (fun q step => step.run q) q0

/-- `class Result` (lines 145-151): a BakedQuery bound to a session with an
accumulated parameter dictionary. -/
structure ResultObj where
  bq : BakedQuery
  sess : Session
  rparams : Params

/-- `BakedQuery.for_session(session)` (lines 68-69). -/
def BakedQuery.for_session (b : BakedQuery) (s : Session) : ResultObj :=
  { bq := b, sess := s, rparams := [] }

/-- `Result.params` (lines 153-161), keyword / single-dict path: merge the
given bindings into the parameter map, last write wins. -/
def ResultObj.params (r : ResultObj) (kw : Params) : ResultObj :=
  { r with rparams := r.rparams.update kw }

/-- `Result._as_query` (lines 163-164). -/
def ResultObj.as_query (r : ResultObj) : Except Err Query := do
  let q ← r.bq.as_query r.sess
  pure (q.paramsUpd r.rparams)

/-!  Helper for building a pipeline the way callers do: construct with the
initial step and its extra args, then `add_criteria` each later step with its
extra args, in order. -/

/-- Build a BakedQuery from an ordered pipeline description. -/
def buildBaked (fn : InitStep) (args : CacheKey) (bakery : Option Ref)
    (rest : List (Step × CacheKey)) : BakedQuery :=
  rest.foldl (fun b sa => b.add_criteria sa.1 sa.2) (BakedQuery.mkNew fn args bakery)

/-- The source-location identity and discriminators of one appended step:
all that the cache key may depend on. -/
def stepData (sa : Step × CacheKey) : String × Int × CacheKey :=
  (sa.1.filename, sa.1.firstlineno, sa.2)

/-- Cache key written the way spec section 3 words it: "for every step in
pipeline order, a stable identity token for that step followed by its extra
discriminator values", the initial step included. -/
def specCacheKey (fn : InitStep) (args : CacheKey) (rest : List (Step × CacheKey)) : CacheKey :=
  (fn.ident ++ args) ++ (rest.map (fun sa => sa.1.ident ++ sa.2)).flatten

/-! ## The store of shared mutable objects -/

/-- An attribute key in a compiled context's attribute bag: a load-path
tuple (the code tests `'subquery' in k`, i.e. tuple membership). -/
abbrev AttrKey := List PyVal

/-- `'subquery' in k` (line 126). -/
def AttrKey.containsSubquery (k : AttrKey) : Bool :=
  k.contains (.str "subquery")

/-- A value in the attribute bag: a `Query` (a subquery eager loader found by
the scan), a restored `Result` (placed back by the unbake pass), or anything
else. -/
inductive AttrVal where
  | q (query : Query)
  | res (r : ResultObj)
  | v (x : PyVal)

/-- The attribute bag of a compiled context.  The tuple-keyed entries and the
string-keyed `'baked_queries'` list (which can never collide with a tuple
key) are kept apart; `baked_queries = none` models the key being absent. -/
structure Attrs where
  entries : List (AttrKey × AttrVal)
  baked_queries : Option (List (AttrKey × CacheKey × Query))

/-- Dictionary lookup among the tuple-keyed entries. -/
def Attrs.get? (a : Attrs) (k : AttrKey) : Option AttrVal :=
  (a.entries.find? (fun e => e.1 == k)).map (fun e => e.2)

/-- `del` of a tuple-keyed entry. -/
def Attrs.del (a : Attrs) (k : AttrKey) : Attrs :=
  { a with entries := a.entries.filter (fun e => !(e.1 == k)) }

/-- Dictionary assignment of a tuple-keyed entry. -/
def Attrs.setEntry (a : Attrs) (k : AttrKey) (v : AttrVal) : Attrs :=
  if a.entries.any (fun e => e.1 == k) then
    { a with entries := a.entries.map (fun e => if e.1 == k then (k, v) else e) }
  else
    { a with entries := a.entries ++ [(k, v)] }

/-- A compiled context (the spec's CompiledPlan), the value stored in a
bakery: what `Query._compile_context()` returns, after the baked layer is
done with it.  `stmt` and `attrs` are references to the shared statement
object and attribute dictionary; a `copy.copy` of the context copies this
record but keeps the references. -/
structure QueryContext where
  sess : Option Session
  query : Query
  stmt : Ref
  attrs : Ref
  autoflush : Bool
  populate_existing : Bool
  deriving DecidableEq

/-- What the external `Query._compile_context()` produces: fresh statement
and attribute-bag objects and the execution flags. -/
structure CompileOut where
  attrs : Attrs
  use_labels : Bool
  autoflush : Bool
  populate_existing : Bool

/-- A bakery's mapping contents: cache key to compiled context.  (The global
instance is an LRU-bounded mapping; the bound and recency order play no part
in the claims, so the mapping alone is modelled.) -/
abbrev Bakery := List (CacheKey × QueryContext)

/-- The shared mutable objects: statement objects (their `use_labels` flag),
attribute dictionaries, and bakeries. -/
structure Heap where
  stmts : List (Ref × Bool)
  dicts : List (Ref × Attrs)

/-- The global state: the heap, the bakery mappings, and the next fresh
reference. -/
structure State where
  heap : Heap
  bakeries : List (Ref × Bakery)
  next : Ref

/-- The `use_labels` flag of the statement object behind `r`. -/
def State.stmtAt (st : State) (r : Ref) : Option Bool :=
  (st.heap.stmts.find? (fun p => p.1 == r)).map (fun p => p.2)

/-- Assign the `use_labels` flag of the statement object behind `r`. -/
def State.stmtSet (st : State) (r : Ref) (b : Bool) : State :=
  { st with heap := { st.heap with
      stmts := st.heap.stmts.map (fun p => if p.1 == r then (r, b) else p) } }

/-- Allocate a fresh statement object. -/
def State.allocStmt (st : State) (b : Bool) : Ref × State :=
  (st.next, { st with
    heap := { st.heap with stmts := (st.next, b) :: st.heap.stmts }
    next := st.next + 1 })

/-- The attribute dictionary behind `r`, when allocated. -/
def State.dictAt? (st : State) (r : Ref) : Option Attrs :=
  (st.heap.dicts.find? (fun p => p.1 == r)).map (fun p => p.2)

/-- The attribute dictionary behind `r` (empty for a dangling reference;
runs only ever dereference live dictionaries). -/
def State.dictAt (st : State) (r : Ref) : Attrs :=
  (st.dictAt? r).getD { entries := [], baked_queries := Option.none }

/-- Mutate the attribute dictionary behind `r` in place. -/
def State.dictMod (st : State) (r : Ref) (f : Attrs → Attrs) : State :=
  { st with heap := { st.heap with
      dicts := st.heap.dicts.map (fun p => if p.1 == r then (r, f p.2) else p) } }

/-- Allocate a fresh attribute dictionary. -/
def State.allocDict (st : State) (a : Attrs) : Ref × State :=
  (st.next, { st with
    heap := { st.heap with dicts := (st.next, a) :: st.heap.dicts }
    next := st.next + 1 })

/-- Lookup in the bakery behind reference `b`. -/
def State.bakeryFind? (st : State) (b : Ref) (k : CacheKey) : Option QueryContext :=
  match (st.bakeries.find? (fun p => p.1 == b)).map (fun p => p.2) with
  | Option.none => Option.none
  | some entries => (entries.find? (fun e => e.1 == k)).map (fun e => e.2)

/-- Mapping assignment within one bakery's contents. -/
def keyStore (entries : Bakery) (k : CacheKey) (c : QueryContext) : Bakery :=
  if entries.any (fun e => e.1 == k) then
    entries.map (fun e => if e.1 == k then (k, c) else e)
  else
    entries ++ [(k, c)]

/-- `self._bakery[self._cache_key] = context` (line 105): assignment into the
bakery behind reference `b`. -/
def State.bakeryStore (st : State) (b : Ref) (k : CacheKey) (c : QueryContext) : State :=
  if st.bakeries.any (fun p => p.1 == b) then
    { st with bakeries := st.bakeries.map (fun p => if p.1 == b then (b, keyStore p.2 k c) else p) }
  else
    { st with bakeries := st.bakeries ++ [(b, keyStore [] k c)] }

/-! ## Baking -/

/-- The file the baked layer lives in, the `co_filename` of the lambdas the
layer itself creates. -/
def bakedPy : String := "lib/sqlalchemy/ext/baked.py"

/-- The lambda created at line 127, `lambda *args: v`: ignores its arguments
and returns the captured query.  It is invoked immediately — inside the loop
iteration that created it — so it sees the current tuple's query. -/
def bakeLambda (v : Query) : InitStep :=
  { filename := bakedPy, firstlineno := 127, run := fun _ => .ok v }

/-- The lambda created at line 140, `lambda sess: query.with_session(sess)`. -/
def unbakeLambda (query : Query) : InitStep :=
  { filename := bakedPy, firstlineno := 140, run := fun s => .ok (query.with_session (some s)) }

/-- The nested BakedQuery of lines 127-128: constructed around the line-127
lambda (global bakery, since no bakery is passed), its cache key then
overwritten with the parent key extended by the attribute key. -/
def nestedBQ (parentKey : CacheKey) (ak : AttrKey) (qv : Query) : BakedQuery :=
  { BakedQuery.mkNew (bakeLambda qv) [] Option.none with cacheKey := parentKey ++ ak }

/-- The restored BakedQuery of lines 140-141: constructed around the
line-140 lambda, its cache key then overwritten with the stored nested key. -/
def restoredBQ (lastq : Query) (ck : CacheKey) : BakedQuery :=
  { BakedQuery.mkNew (unbakeLambda lastq) [] Option.none with cacheKey := ck }

/-- The loop of `_bake_subquery_loaders` (lines 124-131), over a snapshot of
the attribute items: every `Query`-valued entry is deleted; those whose key
mentions `"subquery"` are first baked — under the parent key extended by the
attribute key, into the global bakery, since line 127's constructor passes no
bakery — and appended to the dict's `baked_queries` list.  `bakeF` stands for
the recursive `_bake` call.  A raise from a nested bake aborts the loop and
skips that entry's append and delete, keeping all earlier mutations. -/
def bakeSubLoop (bakeF : BakedQuery → Session → State → State × Except Err Unit)
    (parentKey : CacheKey) (sess : Session) (d : Ref) :
    List (AttrKey × AttrVal) → State → State × Except Err Unit
  | [], st => (st, .ok ())
  | (k, v) :: rest, st =>
    match v with
    | .q qv =>
      if k.containsSubquery then
        match bakeF (nestedBQ parentKey k qv) sess st with
        | (st1, .error e) => (st1, .error e)
        | (st1, .ok _) =>
          let st2 := st1.dictMod d (fun a =>
            { a with baked_queries := some ((a.baked_queries.getD []) ++ [(k, parentKey ++ k, qv)]) })
          bakeSubLoop bakeF parentKey sess d rest (st2.dictMod d (fun a => a.del k))
      else
        bakeSubLoop bakeF parentKey sess d rest (st.dictMod d (fun a => a.del k))
    | .res _ => bakeSubLoop bakeF parentKey sess d rest st
    | .v _ => bakeSubLoop bakeF parentKey sess d rest st

/-- `BakedQuery._bake(session)` (lines 88-105) together with
`_bake_subquery_loaders` (lines 114-131).  `compile` is the external
`Query._compile_context`; `fuel` bounds the recursion through nested subquery
baking (finite by the spec's acyclicity argument).  On success the compiled
context — session cleared, query detached from its session and pointed at the
bakery's compiled cache, scratch attributes popped — is stored in the bakery
under the cache key, as the final action. -/
def bake (compile : Query → Except Err CompileOut) :
    Nat → BakedQuery → Session → State → State × Except Err Unit
  | 0, _, _, st => (st, .error .fuelOut)
  | fuel + 1, bq, sess, st =>
    match bq.as_query sess with
    | .error e => (st, .error e)
    | .ok q =>
      match compile q with
      | .error e => (st, .error e)
      | .ok co =>
        let (sref, st1) := st.allocStmt co.use_labels
        let (dref, st2) := st1.allocDict co.attrs
        let st3 := st2.dictMod dref (fun a => { a with baked_queries := some [] })
        let items := (st3.dictAt dref).entries
        match bakeSubLoop (bake compile fuel) bq.cacheKey sess dref items st3 with
        | (st4, .error e) => (st4, .error e)
        | (st4, .ok _) =>
          let ctx : QueryContext :=
            { sess := Option.none
              query := ((q.with_session Option.none).withCompiledCache bq.bakery).popScratch
              stmt := sref
              attrs := dref
              autoflush := co.autoflush
              populate_existing := co.populate_existing }
          (st4.bakeryStore bq.bakery bq.cacheKey ctx, .ok ())

/-- `BakedQuery._unbake_subquery_loaders(session, context, params)` (lines
133-142): for each stored `(k, cache_key, query)` tuple, build a one-step
BakedQuery around `lambda sess: query.with_session(sess)`, overwrite its key
with the stored nested key, bind it to the live session and the live params,
and store the Result under the attribute key `k`.

CPython scoping, modelled faithfully: the lambda at line 140 closes over the
loop variable `query` itself, not its value at closure-creation time.  These
steps only ever run after the loop has finished — when a restored Result is
iterated — and by then the shared cell holds the query of the LAST tuple, so
every created step rebinds that last query. -/
def unbake (live : Session) (ps : Params) (d : Ref) (st : State) : State × Except Err Unit :=
  match (st.dictAt d).baked_queries with
  | Option.none => (st, .error .keyError)
  | some tuples =>
    match tuples.getLast? with
    | Option.none => (st, .ok ())
    | some lastT =>
      let lastq := lastT.2.2
      let st' := tuples.foldl
        (fun s t =>
          s.dictMod d (fun a =>
            a.setEntry t.1 (.res (((restoredBQ lastq t.2.1).for_session live).params ps))))
        st
      (st', .ok ())

/-- `Result.__iter__` (lines 169-189): spoiled queries run the pipeline fresh
and touch no state; otherwise the plan is looked up (baking on a miss), the
context record is `copy.copy`ed, its session rebound, its attribute dict
replaced by a fresh copy, the subquery loaders restored into that copy, the
shared statement's `use_labels` forced on, and the rebound, parameter-bound
query executed. -/
def iterate (compile : Query → Except Err CompileOut) (fuel : Nat)
    (r : ResultObj) (st : State) : State × Except Err (List PyVal) :=
  let bq := r.bq
  if bq.spoiled then
    match r.as_query with
    | .error e => (st, .error e)
    | .ok q => (st, .ok q.execute)
  else
    let (st1, baked) :=
      if (st.bakeryFind? bq.bakery bq.cacheKey).isSome then (st, Except.ok ())
      else bake compile fuel bq r.sess st
    match baked with
    | .error e => (st1, .error e)
    | .ok _ =>
      match st1.bakeryFind? bq.bakery bq.cacheKey with
      | Option.none => (st1, .error .keyError)
      | some bctx =>
        let c1 := { bctx with sess := some r.sess }
        let (dref, st2) := st1.allocDict (st1.dictAt c1.attrs)
        let c2 := { c1 with attrs := dref }
        match unbake r.sess r.rparams c2.attrs st2 with
        | (st3, .error e) => (st3, .error e)
        | (st3, .ok _) =>
          let st4 := st3.stmtSet c2.stmt true
          (st4, .ok ((c2.query.paramsUpd r.rparams).with_session (some r.sess)).execute)

/-- The lambda at line 192, `lambda q: q.slice(0, 1)`. -/
def sliceStep : Step :=
  { filename := bakedPy, firstlineno := 192, run := fun q => .ok q.sliceFirstRow }

/-- `Result.first` (lines 191-197): fork the pipeline with the slice step,
iterate the fork, return the first row or the absence value. -/
def ResultObj.first (compile : Query → Except Err CompileOut) (fuel : Nat)
    (r : ResultObj) (st : State) : State × Except Err (Option PyVal) :=
  let bq2 := r.bq.with_criteria sliceStep []
  match iterate compile fuel ((bq2.for_session r.sess).params r.rparams) st with
  | (st', .error e) => (st', .error e)
  | (st', .ok ret) =>
    if h : 0 < ret.length then (st', .ok (some (ret.get ⟨0, h⟩)))
    else (st', .ok Option.none)

/-- `Result.one` (lines 199-212). -/
def ResultObj.one (compile : Query → Except Err CompileOut) (fuel : Nat)
    (r : ResultObj) (st : State) : State × Except Err PyVal :=
  match iterate compile fuel r st with
  | (st', .error e) => (st', .error e)
  | (st', .ok ret) =>
    match ret with
    | [x] => (st', .ok x)
    | [] => (st', .error .noResultFound)
    | _ => (st', .error .multipleResultsFound)

/-! ## Identity lookup -/

/-- The mapper interface the identity path consumes: the primary-key column
list.  The bound-parameter key for a column (`_get_params[col].key`) is the
column's mapped attribute name, modelled as the column name itself. -/
structure Mapper where
  primary_key : List String

/-- Modelled from the spec: `mapper._get_clause` (not under `src/`), the
identity-lookup predicate template — one equality-against-parameter per
primary-key column. -/
def Mapper.get_clause (m : Mapper) : List PredAtom :=
  m.primary_key.map (fun c => PredAtom.eqParam c c)

/-- Modelled from the spec: `sql_util.adapt_criterion_to_null(clause, nones)`
(not under `src/`) — comparisons against the parameter keys in `nones` become
IS NULL tests ("a null identity component changes the generated predicate
from equality to IS NULL"). -/
def adapt_criterion_to_null (clause : List PredAtom) (nones : List String) : List PredAtom :=
  clause.map (fun a =>
    match a with
    | .eqParam col pkey => if nones.contains pkey then .isNull col else .eqParam col pkey
    | .isNull col => .isNull col)

/-- The `nones` set of lines 238-242: the parameter keys of the primary-key
columns whose identity component is None. -/
def nonesOf (pk : List String) (ident : List PyVal) : List String :=
  (pk.zip ident).filterMap
    (fun cv => if cv.2 = PyVal.pynone then some cv.1 else Option.none)

/-- The `setup` closure of lines 230-248: clear the ordering, take the
identity predicate template, rewrite the None positions to IS NULL when the
identity contains a None, install the clause as the criterion.
(`q._get_condition()` and `q._adapt_clause(..)` live outside `src/` and do
not alter the predicate's shape; they are modelled as the identity.) -/
def setupStep (m : Mapper) (ident : List PyVal) : Step :=
  { filename := bakedPy
    firstlineno := 230
    run := fun q =>
      let lcl :=
        if ident.contains PyVal.pynone then
          adapt_criterion_to_null m.get_clause (nonesOf m.primary_key ident)
        else m.get_clause
      .ok { q with hasOrder := false, criterion := lcl } }

/-- The discriminator tuple of line 255:
`tuple(elem is None for elem in ident)`. -/
def identMask (ident : List PyVal) : CacheKey :=
  ident.map (fun e => PyVal.bool (e == PyVal.pynone))

/-- Line 255: `bq.with_criteria(setup, tuple(elem is None for elem in ident))`. -/
def ResultObj.identBQ (r : ResultObj) (m : Mapper) (ident : List PyVal) : BakedQuery :=
  r.bq.with_criteria (setupStep m ident) (identMask ident)

/-- The bound parameters of lines 257-260: one per primary-key column, keyed
by the column's parameter key, holding the identity value. -/
def identParams (m : Mapper) (ident : List PyVal) : Params :=
  (ident.zip m.primary_key).map (fun ip => (ip.2, ip.1))

/-- `Result._load_on_ident(query, key)` (lines 221-269), after
`query._mapper_zero()` has produced `m`. -/
def ResultObj.load_on_ident (compile : Query → Except Err CompileOut) (fuel : Nat)
    (r : ResultObj) (m : Mapper) (ident : List PyVal) (st : State) :
    State × Except Err (Option PyVal) :=
  let bq := r.identBQ m ident
  match iterate compile fuel ((bq.for_session r.sess).params (identParams m ident)) st with
  | (st', .error e) => (st', .error e)
  | (st', .ok res) =>
    if res.length > 1 then (st', .error .multipleResultsFound)
    else if h : 0 < res.length then (st', .ok (some (res.get ⟨0, h⟩)))
    else (st', .ok Option.none)

/-! ## Concrete fixtures for the closed checks -/

/-- A blank query. -/
def q0 : Query :=
  { sess := Option.none, rows := [], qparams := [], criterion := []
    hasOrder := false, scratch := [], compiled_cache := Option.none }

/-- A concrete initial step: a call site in application code. -/
def initA : InitStep :=
  { filename := "app/models.py", firstlineno := 10
    run := fun s => .ok { q0 with sess := some s, rows := [.int 1, .int 2] } }

/-- A second initial step at the same source location with a different body. -/
def initB : InitStep :=
  { filename := "app/models.py", firstlineno := 10
    run := fun s => .ok { q0 with sess := some s, rows := [.int 9] } }

/-- A third initial step, used by the key-shape counterexample. -/
def initC : InitStep :=
  { filename := "u.py", firstlineno := 3, run := fun s => .ok { q0 with sess := some s } }

/-- A concrete criteria step. -/
def stepA : Step :=
  { filename := "app/models.py", firstlineno := 20, run := fun q => .ok q }

/-- A criteria step at stepA's source location with a different body. -/
def stepB : Step :=
  { filename := "app/models.py", firstlineno := 20
    run := fun q => .ok { q with hasOrder := true } }

/-- A compile oracle producing an empty attribute bag, labels off. -/
def compile0 : Query → Except Err CompileOut :=
  fun _ => .ok { attrs := { entries := [], baked_queries := Option.none }
                 use_labels := false, autoflush := false, populate_existing := false }

/-- A starting state holding one (empty) bakery, the global one. -/
def st0 : State :=
  { heap := { stmts := [], dicts := [] }, bakeries := [(globalBakery, [])], next := 1 }

/-- A one-step unspoiled BakedQuery over `initA`. -/
def bqPlain : BakedQuery := BakedQuery.mkNew initA [] Option.none

/-- A spoiled BakedQuery. -/
def bqSpoiled : BakedQuery := (BakedQuery.mkNew initA [] Option.none).spoil

/-- A spoiled BakedQuery whose pipeline yields no rows. -/
def bqEmptySpoiled : BakedQuery := (BakedQuery.mkNew initC [] Option.none).spoil

/-- A compile oracle that always raises. -/
def compileFail : Query → Except Err CompileOut := fun _ => .error (.exc "boom")

/-- A stored compiled context for the concrete iteration checks: statement
object 0 with labels OFF at store time, attribute dict 1 with no subquery
tuples. -/
def ctx0 : QueryContext :=
  { sess := Option.none, query := { q0 with rows := [.int 4] }, stmt := 0, attrs := 1
    autoflush := false, populate_existing := false }

/-- A state whose global bakery already holds `ctx0` under `bqPlain`'s key. -/
def stCached : State :=
  { heap := { stmts := [(0, false)]
              dicts := [(1, { entries := [], baked_queries := some [] })] }
    bakeries := [(globalBakery, [(bqPlain.cacheKey, ctx0)])]
    next := 2 }

/-- Nested subquery fixtures: two distinct realized subqueries. -/
def c6q1 : Query := { q0 with rows := [.int 11] }

/-- The second nested subquery. -/
def c6q2 : Query := { q0 with rows := [.int 22] }

/-- The load-path attribute key of the first nested subquery. -/
def c6k1 : AttrKey := [.str "subquery", .str "p1"]

/-- The load-path attribute key of the second nested subquery. -/
def c6k2 : AttrKey := [.str "subquery", .str "p2"]

/-- The stored nested cache key of the first tuple. -/
def c6ck1 : CacheKey := [.str "parent", .str "subquery", .str "p1"]

/-- The stored nested cache key of the second tuple. -/
def c6ck2 : CacheKey := [.str "parent", .str "subquery", .str "p2"]

/-- A state holding dict 0: a copied attribute bag whose `baked_queries`
registry carries two tuples. -/
def c6state : State :=
  { heap := { stmts := []
              dicts := [(0, { entries := []
                              baked_queries := some [(c6k1, c6ck1, c6q1), (c6k2, c6ck2, c6q2)] })] }
    bakeries := [], next := 1 }

/-- The mapper of the identity-lookup checks: two primary-key columns. -/
def m8 : Mapper := { primary_key := ["a", "b"] }

/-- What the code computes: the initial step's extra args come first, then
the initial step's identity, then identity-then-args for each appended step. -/
theorem buildBaked_cacheKey (fn : InitStep) (args : CacheKey) (bakery : Option Ref)
    (rest : List (Step × CacheKey)) :
    (buildBaked fn args bakery rest).cacheKey =
      args ++ fn.ident ++ (rest.map (fun sa => sa.1.ident ++ sa.2)).flatten := by
  suffices h : ∀ (l : List (Step × CacheKey)) (b : BakedQuery),
      (l.foldl (fun b sa => b.add_criteria sa.1 sa.2) b).cacheKey =
        b.cacheKey ++ (l.map (fun sa => sa.1.ident ++ sa.2)).flatten by
    simpa [buildBaked, BakedQuery.mkNew] using h rest (BakedQuery.mkNew fn args bakery)
  intro l
  induction l with
  | nil => intro b; simp
  | cons hd tl ih =>
    intro b
    rw [List.foldl_cons, ih]
    simp [BakedQuery.add_criteria, BakedQuery.update_cache_key, List.append_assoc]


/-! ## C1 -/

/-- C1: two pipelines built from identical ordered sequences of (step
source-location identity, extra discriminator values) get equal cache keys,
whatever the step bodies, bakeries, sessions and later-bound parameter
values are; and attaching a session and binding parameters leaves the cache
key untouched. -/
theorem c1_cache_key_deterministic
    (f1 f2 : InitStep) (args : CacheKey) (r1 r2 : List (Step × CacheKey))
    (bk1 bk2 : Option Ref)
    (hfile : f1.filename = f2.filename) (hline : f1.firstlineno = f2.firstlineno)
    (hrest : r1.map stepData = r2.map stepData)
    (s : Session) (p : Params) :
    (buildBaked f1 args bk1 r1).cacheKey = (buildBaked f2 args bk2 r2).cacheKey
    ∧ (((buildBaked f1 args bk1 r1).for_session s).params p).bq.cacheKey
        = (buildBaked f1 args bk1 r1).cacheKey := by
  constructor
  · have hident : f1.ident = f2.ident := by
      simp [InitStep.ident, hfile, hline]
    have hmap : r1.map (fun sa => sa.1.ident ++ sa.2)
        = r2.map (fun sa => sa.1.ident ++ sa.2) := by
      have h1 : ∀ (l : List (Step × CacheKey)),
          l.map (fun sa => sa.1.ident ++ sa.2) =
            (l.map stepData).map (fun d => [PyVal.str d.1, PyVal.int d.2.1] ++ d.2.2) := by
        intro l
        rw [List.map_map]
        rfl
      rw [h1, h1, hrest]
    rw [buildBaked_cacheKey, buildBaked_cacheKey, hident, hmap]
  · rfl

/-- C1 witness: the hypotheses hold at a concrete pair of pipelines whose
step bodies differ (initA/initB and stepA/stepB share source locations but
not behaviour), and the key equality follows. -/
theorem c1_witness :
    (initA.filename = initB.filename ∧ initA.firstlineno = initB.firstlineno
      ∧ [(stepA, ([] : CacheKey))].map stepData = [(stepB, ([] : CacheKey))].map stepData)
    ∧ (buildBaked initA [] Option.none [(stepA, [])]).cacheKey
        = (buildBaked initB [] (some 3) [(stepB, [])]).cacheKey :=
  ⟨⟨rfl, rfl, rfl⟩,
    (c1_cache_key_deterministic initA initB [] [(stepA, [])] [(stepB, [])]
      Option.none (some 3) rfl rfl rfl 5 []).1⟩

/-! ## C2 -/

/-- C2 counterexample: with one extra discriminator on the initial step, the
code's key puts the discriminator BEFORE the initial step's identity token;
the claim's wording (identity token first, then discriminators, for every
step including the initial one) puts it after.  The two disagree. -/
theorem c2_counterexample :
    (buildBaked initC [PyVal.int 7] Option.none []).cacheKey
      ≠ specCacheKey initC [PyVal.int 7] [] := by
  decide

/-- C2 amended: the cache key is the ordered concatenation, in pipeline
order, of identity-token-then-discriminators for every APPENDED step, while
the INITIAL step contributes its extra discriminator values first and its
identity token second. -/
theorem c2_cache_key_shape (fn : InitStep) (args : CacheKey) (bakery : Option Ref)
    (rest : List (Step × CacheKey)) :
    (buildBaked fn args bakery rest).cacheKey =
      args ++ fn.ident ++ (rest.map (fun sa => sa.1.ident ++ sa.2)).flatten :=
  buildBaked_cacheKey fn args bakery rest

/-! ## C5 -/

/-- C5: `with_criteria` forks: the new BakedQuery's pipeline is the old one
plus the new step (an independent list — `_clone` copies it via
`list(self.steps)`, and in this value-level model lists never alias), its
cache key extends the old key by the step's identity and discriminators, and
it shares the bakery reference and the spoiled flag; `_clone` reproduces
every field of the original, which the pure `with_criteria` call leaves
untouched. -/
theorem c5_with_criteria_fork (b : BakedQuery) (fn : Step) (args : CacheKey) :
    (b.with_criteria fn args).steps0 = b.steps0
    ∧ (b.with_criteria fn args).steps1 = b.steps1 ++ [fn]
    ∧ (b.with_criteria fn args).cacheKey = b.cacheKey ++ fn.ident ++ args
    ∧ (b.with_criteria fn args).bakery = b.bakery
    ∧ (b.with_criteria fn args).spoiled = b.spoiled
    ∧ b.clone = b :=
  ⟨rfl, rfl, rfl, rfl, rfl, rfl⟩

/-! ## C3 -/

/-- C3: iterating a spoiled Result leaves the whole state — in particular
every bakery mapping — unchanged, and the produced rows come from running
the full step pipeline fresh from the initial step, with the live session
and parameters.  `iterate` is a function of the state, so this holds on
every call. -/
theorem c3_spoiled_bypasses_cache (compile : Query → Except Err CompileOut)
    (fuel : Nat) (r : ResultObj) (st : State) (h : r.bq.spoiled = true) :
    (iterate compile fuel r st).1 = st
    ∧ (iterate compile fuel r st).2 =
        (match r.as_query with
         | .error e => .error e
         | .ok q => .ok q.execute) := by
  have hmain : iterate compile fuel r st =
      (st, match r.as_query with
           | .error e => .error e
           | .ok q => .ok q.execute) := by
    unfold iterate
    dsimp only
    rw [if_pos h]
    cases r.as_query <;> rfl
  exact ⟨by rw [hmain], by rw [hmain]⟩

/-- C3 witness: a concrete spoiled query iterated over a concrete state. -/
theorem c3_witness :
    (bqSpoiled.for_session 7).bq.spoiled = true
    ∧ (iterate compile0 1 (bqSpoiled.for_session 7) st0).1 = st0 :=
  ⟨rfl, (c3_spoiled_bypasses_cache compile0 1 (bqSpoiled.for_session 7) st0 rfl).1⟩

/-! ## Association-list and store helper lemmas -/

section AssocHelpers

variable {κ : Type} {β : Type} [BEq κ] [LawfulBEq κ]

/-- In-place assoc update at `k`: lookups at other keys are unchanged. -/
theorem find?_updateAt_ne (l : List (κ × β)) (k k' : κ) (g : β → β) (h : k' ≠ k) :
    (l.map (fun p => if p.1 == k then (k, g p.2) else p)).find? (fun p => p.1 == k')
      = l.find? (fun p => p.1 == k') := by
  induction l with
  | nil => rfl
  | cons a t ih =>
    rw [List.map_cons]
    by_cases hk : (a.1 == k) = true
    · have ha : a.1 = k := eq_of_beq hk
      rw [if_pos hk]
      rw [List.find?_cons_of_neg (p := fun q : κ × β => q.1 == k') _
        (by simp only [beq_iff_eq]; exact Ne.symm h)]
      rw [List.find?_cons_of_neg (p := fun q : κ × β => q.1 == k') _
        (by simp only [beq_iff_eq, ha]; exact Ne.symm h)]
      exact ih
    · rw [if_neg hk]
      by_cases hk' : (a.1 == k') = true
      · rw [List.find?_cons_of_pos (p := fun q : κ × β => q.1 == k') _ hk',
          List.find?_cons_of_pos (p := fun q : κ × β => q.1 == k') _ hk']
      · rw [List.find?_cons_of_neg (p := fun q : κ × β => q.1 == k') _ hk',
          List.find?_cons_of_neg (p := fun q : κ × β => q.1 == k') _ hk']
        exact ih

/-- In-place assoc update at `k`: the lookup at `k` sees `g` applied to the
previous value. -/
theorem find?_updateAt_eq (l : List (κ × β)) (k : κ) (g : β → β) :
    ((l.map (fun p => if p.1 == k then (k, g p.2) else p)).find? (fun p => p.1 == k)).map
        (fun p => p.2)
      = ((l.find? (fun p => p.1 == k)).map (fun p => p.2)).map g := by
  induction l with
  | nil => rfl
  | cons a t ih =>
    rw [List.map_cons]
    by_cases hk : (a.1 == k) = true
    · rw [if_pos hk]
      rw [List.find?_cons_of_pos (p := fun q : κ × β => q.1 == k) _ hk]
      rw [List.find?_cons_of_pos (p := fun q : κ × β => q.1 == k) _
        (by simp only [beq_iff_eq])]
      rfl
    · rw [if_neg hk]
      rw [List.find?_cons_of_neg (p := fun q : κ × β => q.1 == k) _ hk,
        List.find?_cons_of_neg (p := fun q : κ × β => q.1 == k) _ hk]
      exact ih

/-- Appending a binding for `k`: lookups at other keys are unchanged. -/
theorem find?_append_single_ne (l : List (κ × β)) (k k' : κ) (v : β) (h : k' ≠ k) :
    (l ++ [(k, v)]).find? (fun p => p.1 == k') = l.find? (fun p => p.1 == k') := by
  induction l with
  | nil =>
    rw [List.nil_append]
    rw [List.find?_cons_of_neg (p := fun q : κ × β => q.1 == k') _
      (by simp only [beq_iff_eq]; exact Ne.symm h)]
  | cons a t ih =>
    rw [List.cons_append]
    by_cases hpa : (a.1 == k') = true
    · rw [List.find?_cons_of_pos (p := fun q : κ × β => q.1 == k') _ hpa,
        List.find?_cons_of_pos (p := fun q : κ × β => q.1 == k') _ hpa]
    · rw [List.find?_cons_of_neg (p := fun q : κ × β => q.1 == k') _ hpa,
        List.find?_cons_of_neg (p := fun q : κ × β => q.1 == k') _ hpa]
      exact ih

/-- Appending a binding for an absent `k`: the lookup at `k` now finds it. -/
theorem find?_append_single_eq (l : List (κ × β)) (k : κ) (v : β)
    (hnone : l.find? (fun p => p.1 == k) = Option.none) :
    (l ++ [(k, v)]).find? (fun p => p.1 == k) = some (k, v) := by
  induction l with
  | nil =>
    rw [List.nil_append]
    rw [List.find?_cons_of_pos (p := fun q : κ × β => q.1 == k) _
      (by simp only [beq_iff_eq])]
  | cons a t ih =>
    by_cases hpa : (a.1 == k) = true
    · rw [List.find?_cons_of_pos (p := fun q : κ × β => q.1 == k) _ hpa] at hnone
      exact absurd hnone (by simp)
    · rw [List.find?_cons_of_neg (p := fun q : κ × β => q.1 == k) _ hpa] at hnone
      rw [List.cons_append,
        List.find?_cons_of_neg (p := fun q : κ × β => q.1 == k) _ hpa]
      exact ih hnone

/-- `any` false means the lookup misses. -/
theorem find?_eq_none_of_any_false (l : List (κ × β)) (k : κ)
    (h : l.any (fun p => p.1 == k) = false) :
    l.find? (fun p => p.1 == k) = Option.none := by
  rw [List.find?_eq_none]
  intro a ha
  have := (List.any_eq_false).mp h a ha
  simpa using this

end AssocHelpers

/-- Storing into a bakery makes the stored context the lookup result. -/
theorem bakeryFind?_store_self (st : State) (b : Ref) (k : CacheKey) (c : QueryContext) :
    (st.bakeryStore b k c).bakeryFind? b k = some c := by
  have hkey : ∀ (l : Bakery),
      ((keyStore l k c).find? (fun e => e.1 == k)).map (fun e => e.2) = some c := by
    intro l
    unfold keyStore
    by_cases hany : l.any (fun e => e.1 == k) = true
    · rw [if_pos hany]
      rw [find?_updateAt_eq l k (fun _ => c)]
      obtain ⟨a, ha, hpa⟩ := List.any_eq_true.mp hany
      have hs : (l.find? (fun e => e.1 == k)).isSome := by
        rw [List.find?_isSome]
        exact ⟨a, ha, hpa⟩
      obtain ⟨e, he⟩ := Option.isSome_iff_exists.mp hs
      rw [he]
      rfl
    · rw [if_neg hany]
      rw [find?_append_single_eq l k c
        (find?_eq_none_of_any_false l k (Bool.eq_false_iff.mpr hany))]
      rfl
  unfold State.bakeryStore State.bakeryFind?
  by_cases hany : st.bakeries.any (fun p => p.1 == b) = true
  · rw [if_pos hany]
    simp only
    rw [find?_updateAt_eq st.bakeries b (fun e => keyStore e k c)]
    obtain ⟨a, ha, hpa⟩ := List.any_eq_true.mp hany
    have hs : (st.bakeries.find? (fun p => p.1 == b)).isSome := by
      rw [List.find?_isSome]
      exact ⟨a, ha, hpa⟩
    obtain ⟨e, he⟩ := Option.isSome_iff_exists.mp hs
    rw [he]
    simp only [Option.map_some']
    exact hkey e.2
  · rw [if_neg hany]
    simp only
    rw [find?_append_single_eq st.bakeries b _
      (find?_eq_none_of_any_false st.bakeries b (Bool.eq_false_iff.mpr hany))]
    simp only [Option.map_some']
    exact hkey []

/-- Storing under one key leaves lookups at every other key unchanged, in
every bakery. -/
theorem bakeryFind?_store_ne_key (st : State) (b b' : Ref) (k k' : CacheKey)
    (c : QueryContext) (h : k' ≠ k) :
    (st.bakeryStore b k c).bakeryFind? b' k' = st.bakeryFind? b' k' := by
  have hkey : ∀ (l : Bakery), (keyStore l k c).find? (fun e => e.1 == k')
      = l.find? (fun e => e.1 == k') := by
    intro l
    unfold keyStore
    by_cases hany : l.any (fun e => e.1 == k) = true
    · rw [if_pos hany]
      exact find?_updateAt_ne l k k' (fun _ => c) h
    · rw [if_neg hany]
      exact find?_append_single_ne l k k' c h
  unfold State.bakeryStore State.bakeryFind?
  by_cases hb : b' = b
  · subst hb
    by_cases hany : st.bakeries.any (fun p => p.1 == b') = true
    · rw [if_pos hany]
      simp only
      rw [find?_updateAt_eq st.bakeries b' (fun e => keyStore e k c)]
      cases hfe : st.bakeries.find? (fun p => p.1 == b') with
      | none => rfl
      | some e =>
        simp only [Option.map_some']
        rw [hkey e.2]
    · rw [if_neg hany]
      simp only
      have hnone := find?_eq_none_of_any_false st.bakeries b' (Bool.eq_false_iff.mpr hany)
      rw [find?_append_single_eq st.bakeries b' _ hnone, hnone]
      simp only [Option.map_some', Option.map_none']
      rw [hkey []]
      rfl
  · by_cases hany : st.bakeries.any (fun p => p.1 == b) = true
    · rw [if_pos hany]
      simp only
      rw [find?_updateAt_ne st.bakeries b b' (fun e => keyStore e k c) hb]
    · rw [if_neg hany]
      simp only
      rw [find?_append_single_ne st.bakeries b b' _ hb]

/-- Storing into one bakery leaves every other bakery's lookups unchanged. -/
theorem bakeryFind?_store_ne_bakery (st : State) (b b' : Ref) (k k' : CacheKey)
    (c : QueryContext) (h : b' ≠ b) :
    (st.bakeryStore b k c).bakeryFind? b' k' = st.bakeryFind? b' k' := by
  unfold State.bakeryStore State.bakeryFind?
  by_cases hany : st.bakeries.any (fun p => p.1 == b) = true
  · rw [if_pos hany]
    simp only
    rw [find?_updateAt_ne st.bakeries b b' (fun e => keyStore e k c) h]
  · rw [if_neg hany]
    simp only
    rw [find?_append_single_ne st.bakeries b b' _ h]

/-- Allocating a statement object does not change bakery lookups. -/
theorem bakeryFind?_allocStmt (st : State) (v : Bool) (b : Ref) (k : CacheKey) :
    (st.allocStmt v).2.bakeryFind? b k = st.bakeryFind? b k := rfl

/-- Allocating a dictionary does not change bakery lookups. -/
theorem bakeryFind?_allocDict (st : State) (a : Attrs) (b : Ref) (k : CacheKey) :
    (st.allocDict a).2.bakeryFind? b k = st.bakeryFind? b k := rfl

/-- Mutating a dictionary does not change bakery lookups. -/
theorem bakeryFind?_dictMod (st : State) (d : Ref) (f : Attrs → Attrs) (b : Ref) (k : CacheKey) :
    (st.dictMod d f).bakeryFind? b k = st.bakeryFind? b k := rfl

/-- Mutating a statement flag does not change bakery lookups. -/
theorem bakeryFind?_stmtSet (st : State) (r : Ref) (v : Bool) (b : Ref) (k : CacheKey) :
    (st.stmtSet r v).bakeryFind? b k = st.bakeryFind? b k := rfl

/-- An attribute key that mentions "subquery" is nonempty. -/
theorem containsSubquery_ne_nil (k : AttrKey) (h : k.containsSubquery = true) : k ≠ [] := by
  intro he
  subst he
  simp [AttrKey.containsSubquery] at h

/-- If the recursive bake call changes bakery lookups only at keys strictly
longer than its own cache key, then the subquery-loader loop changes no
bakery lookup at any key no longer than the parent key: every nested cache
key strictly extends the parent key. -/
theorem bakeSubLoop_find_short
    (bakeF : BakedQuery → Session → State → State × Except Err Unit)
    (hF : ∀ bq sess st bref hk, List.length hk < bq.cacheKey.length →
      (bakeF bq sess st).1.bakeryFind? bref hk = st.bakeryFind? bref hk)
    (parentKey : CacheKey) (sess : Session) (d : Ref) :
    ∀ (items : List (AttrKey × AttrVal)) (st : State) (bref : Ref) (k : CacheKey),
      k.length ≤ parentKey.length →
      (bakeSubLoop bakeF parentKey sess d items st).1.bakeryFind? bref k
        = st.bakeryFind? bref k := by
  intro items
  induction items with
  | nil => intro st bref k hk; rfl
  | cons hd tl ih =>
    intro st bref k hk
    obtain ⟨ak, av⟩ := hd
    cases av with
    | q qv =>
      by_cases hsub : ak.containsSubquery = true
      · have hlen : k.length < (nestedBQ parentKey ak qv).cacheKey.length := by
          have hne : ak ≠ [] := containsSubquery_ne_nil ak hsub
          have hpos : 0 < ak.length := List.length_pos.mpr hne
          show k.length < (parentKey ++ ak).length
          rw [List.length_append]
          omega
        simp only [bakeSubLoop]
        rw [if_pos hsub]
        rcases hB : bakeF (nestedBQ parentKey ak qv) sess st with ⟨st1, rB⟩
        cases rB with
        | error e =>
          simp only
          have hpres := hF (nestedBQ parentKey ak qv) sess st bref k hlen
          rw [hB] at hpres
          exact hpres
        | ok u =>
          simp only
          rw [ih _ bref k hk]
          have hpres := hF (nestedBQ parentKey ak qv) sess st bref k hlen
          rw [hB] at hpres
          exact hpres
      · simp only [bakeSubLoop]
        rw [if_neg hsub]
        rw [ih _ bref k hk]
        rfl
    | res r =>
      simp only [bakeSubLoop]
      exact ih st bref k hk
    | v x =>
      simp only [bakeSubLoop]
      exact ih st bref k hk

/-- `bake` changes bakery lookups only at keys at least as long as its own
cache key; lookups at strictly shorter keys are untouched, whatever the
outcome. -/
theorem bake_find_short (compile : Query → Except Err CompileOut) :
    ∀ (fuel : Nat) (bq : BakedQuery) (sess : Session) (st : State) (bref : Ref) (k : CacheKey),
      k.length < bq.cacheKey.length →
      (bake compile fuel bq sess st).1.bakeryFind? bref k = st.bakeryFind? bref k := by
  intro fuel
  induction fuel with
  | zero => intro bq sess st bref k hk; rfl
  | succ fuel ih =>
    intro bq sess st bref k hk
    have hne : k ≠ bq.cacheKey := by
      intro he
      rw [he] at hk
      exact lt_irrefl _ hk
    simp only [bake]
    split
    · rfl
    · split
      · rfl
      · split
        next st4 e heq =>
          have hc1 := congrArg (fun x : State × Except Err Unit => x.1.bakeryFind? bref k) heq
          simp only at hc1
          dsimp only
          rw [← hc1]
          rw [bakeSubLoop_find_short (bake compile fuel) ih bq.cacheKey sess]
          · rfl
          · exact le_of_lt hk
        next st4 u heq =>
          have hc1 := congrArg (fun x : State × Except Err Unit => x.1.bakeryFind? bref k) heq
          simp only at hc1
          dsimp only
          rw [bakeryFind?_store_ne_key _ _ _ _ _ _ hne]
          rw [← hc1]
          rw [bakeSubLoop_find_short (bake compile fuel) ih bq.cacheKey sess]
          · rfl
          · exact le_of_lt hk

/-- A bake either succeeds, or it leaves the bakery entry under its own
cache key exactly as it was, in every bakery. -/
theorem bake_ok_or_preserved (compile : Query → Except Err CompileOut)
    (fuel : Nat) (bq : BakedQuery) (sess : Session) (st : State) (bref : Ref) :
    (bake compile fuel bq sess st).2 = .ok ()
    ∨ (bake compile fuel bq sess st).1.bakeryFind? bref bq.cacheKey
        = st.bakeryFind? bref bq.cacheKey := by
  cases fuel with
  | zero => exact Or.inr rfl
  | succ fuel =>
    simp only [bake]
    split
    · exact Or.inr rfl
    · split
      · exact Or.inr rfl
      · split
        next st4 e heq =>
          refine Or.inr ?_
          have hc1 := congrArg
            (fun x : State × Except Err Unit => x.1.bakeryFind? bref bq.cacheKey) heq
          simp only at hc1
          dsimp only
          rw [← hc1]
          rw [bakeSubLoop_find_short (bake compile fuel) (bake_find_short compile fuel)
            bq.cacheKey sess]
          · rfl
          · exact le_refl _
        next st4 u heq => exact Or.inl rfl

/-! ## C9 -/

/-- C9: when a bake raises anywhere — in pipeline execution, in compilation,
or in nested subquery-loader baking — the raise is the returned outcome and
the bakery entry under the query's own cache key is exactly what it was
before the call, in every bakery: a failed bake writes nothing under that
key.  (Nested bakes that succeeded before the raise wrote only under
strictly longer keys.) -/
theorem c9_failed_bake_leaves_no_entry (compile : Query → Except Err CompileOut)
    (fuel : Nat) (bq : BakedQuery) (sess : Session) (st : State) (e : Err)
    (herr : (bake compile fuel bq sess st).2 = .error e) (bref : Ref) :
    (bake compile fuel bq sess st).1.bakeryFind? bref bq.cacheKey
      = st.bakeryFind? bref bq.cacheKey := by
  rcases bake_ok_or_preserved compile fuel bq sess st bref with hok | hpres
  · rw [herr] at hok
    exact absurd hok (by simp)
  · exact hpres

/-- C9 witness: a concrete bake whose compilation raises; the entry under
the query's key (absent before) is still absent after. -/
theorem c9_witness :
    (bake compileFail 1 bqPlain 7 st0).2 = .error (.exc "boom")
    ∧ (bake compileFail 1 bqPlain 7 st0).1.bakeryFind? globalBakery bqPlain.cacheKey
        = st0.bakeryFind? globalBakery bqPlain.cacheKey :=
  ⟨rfl,
    c9_failed_bake_leaves_no_entry compileFail 1 bqPlain 7 st0 (.exc "boom")
      rfl globalBakery⟩

/-! ## C10 -/

/-- C10: a successful bake stores, under the query's cache key, a context
whose session reference is cleared, whose query is detached from any session,
and whose query `__dict__` no longer holds any of `_correlate`, `_from_obj`,
`_mapper_adapter_map`, `_joinpath`, `_joinpoint`. -/
theorem c10_stored_plan_session_agnostic (compile : Query → Except Err CompileOut)
    (fuel : Nat) (bq : BakedQuery) (sess : Session) (st : State) :
    (bake compile fuel bq sess st).2 = .ok () →
    ∃ ctx : QueryContext,
      (bake compile fuel bq sess st).1.bakeryFind? bq.bakery bq.cacheKey = some ctx
      ∧ ctx.sess = Option.none
      ∧ ctx.query.sess = Option.none
      ∧ ∀ a ∈ scratchAttrs, a ∉ ctx.query.scratch := by
  cases fuel with
  | zero => intro h; exact absurd h (by simp [bake])
  | succ fuel =>
    simp only [bake]
    split
    · intro h; exact absurd h (by simp)
    · split
      · intro h; exact absurd h (by simp)
      · split
        next st4 e heq => intro h; exact absurd h (by simp)
        next st4 u heq =>
          intro _
          dsimp only
          refine ⟨_, bakeryFind?_store_self _ _ _ _, rfl, rfl, ?_⟩
          intro a ha hmem
          have h1 := List.of_mem_filter hmem
          simp only [decide_not, Bool.not_eq_true', decide_eq_false_iff_not] at h1
          exact h1 (by simpa using ha)

/-- C10 witness: a concrete successful bake; the stored context is session-
free. -/
theorem c10_witness :
    (bake compile0 1 bqPlain 7 st0).2 = .ok ()
    ∧ ∃ ctx : QueryContext,
        (bake compile0 1 bqPlain 7 st0).1.bakeryFind? bqPlain.bakery bqPlain.cacheKey = some ctx
        ∧ ctx.sess = Option.none
        ∧ ctx.query.sess = Option.none
        ∧ ∀ a ∈ scratchAttrs, a ∉ ctx.query.scratch :=
  ⟨rfl, c10_stored_plan_session_agnostic compile0 1 bqPlain 7 st0 rfl⟩

/-- A freshly allocated dictionary does not shadow a distinct reference. -/
theorem dictAt?_allocDict_ne (st : State) (a : Attrs) (r : Ref) (h : r ≠ st.next) :
    (st.allocDict a).2.dictAt? r = st.dictAt? r := by
  unfold State.allocDict State.dictAt?
  simp only
  rw [List.find?_cons_of_neg (p := fun q : Ref × Attrs => q.1 == r) _
    (by simp only [beq_iff_eq]; exact Ne.symm h)]

/-- Mutating one dictionary leaves every other dictionary unchanged. -/
theorem dictAt?_dictMod_ne (st : State) (d r : Ref) (f : Attrs → Attrs) (h : r ≠ d) :
    (st.dictMod d f).dictAt? r = st.dictAt? r := by
  unfold State.dictMod State.dictAt?
  simp only
  rw [find?_updateAt_ne st.heap.dicts d r f h]

/-- Setting a statement flag at one reference: the lookup there becomes the
new flag (when the statement object exists). -/
theorem stmtAt_stmtSet_self (st : State) (r : Ref) (v b0 : Bool)
    (h : st.stmtAt r = some b0) :
    (st.stmtSet r v).stmtAt r = some v := by
  unfold State.stmtSet State.stmtAt
  simp only
  have := find?_updateAt_eq st.heap.stmts r (fun _ => v)
  rw [this]
  unfold State.stmtAt at h
  rw [h]
  rfl

/-- Setting a statement flag at one reference leaves the others unchanged. -/
theorem stmtAt_stmtSet_ne (st : State) (r r' : Ref) (v : Bool) (h : r' ≠ r) :
    (st.stmtSet r v).stmtAt r' = st.stmtAt r' := by
  unfold State.stmtSet State.stmtAt
  simp only
  rw [find?_updateAt_ne st.heap.stmts r r' (fun _ => v) h]

/-- A fold of dictionary mutations at `d` touches neither the bakeries, nor
the statements, nor the allocation counter, nor any other dictionary. -/
theorem foldl_dictMod_frame {α : Type} (l : List α) (d : Ref) (F : α → Attrs → Attrs) :
    ∀ st : State,
      (l.foldl (fun s t => s.dictMod d (F t)) st).bakeries = st.bakeries
      ∧ (l.foldl (fun s t => s.dictMod d (F t)) st).heap.stmts = st.heap.stmts
      ∧ (l.foldl (fun s t => s.dictMod d (F t)) st).next = st.next
      ∧ ∀ r, r ≠ d →
          (l.foldl (fun s t => s.dictMod d (F t)) st).dictAt? r = st.dictAt? r := by
  induction l with
  | nil => intro st; exact ⟨rfl, rfl, rfl, fun r h => rfl⟩
  | cons a t ih =>
    intro st
    obtain ⟨h1, h2, h3, h4⟩ := ih (st.dictMod d (F a))
    exact ⟨h1.trans rfl, h2.trans rfl, h3.trans rfl,
      fun r h => (h4 r h).trans (dictAt?_dictMod_ne st d r (F a) h)⟩

/-- `unbake` touches no bakery. -/
theorem unbake_bakeries (live : Session) (ps : Params) (d : Ref) (st : State) :
    (unbake live ps d st).1.bakeries = st.bakeries := by
  unfold unbake
  split
  · rfl
  · split
    · rfl
    · exact (foldl_dictMod_frame _ d _ st).1

/-- `unbake` touches no statement object. -/
theorem unbake_stmts (live : Session) (ps : Params) (d : Ref) (st : State) :
    (unbake live ps d st).1.heap.stmts = st.heap.stmts := by
  unfold unbake
  split
  · rfl
  · split
    · rfl
    · exact (foldl_dictMod_frame _ d _ st).2.1

/-- `unbake` mutates only the dictionary it was given. -/
theorem unbake_dicts_ne (live : Session) (ps : Params) (d : Ref) (st : State)
    (r : Ref) (h : r ≠ d) :
    (unbake live ps d st).1.dictAt? r = st.dictAt? r := by
  unfold unbake
  split
  · rfl
  · split
    · rfl
    · exact (foldl_dictMod_frame _ d _ st).2.2.2 r h

/-- Two states with the same statement store agree on `stmtAt`. -/
theorem stmtAt_congr (st st' : State) (h : st'.heap.stmts = st.heap.stmts) (r : Ref) :
    st'.stmtAt r = st.stmtAt r := by
  unfold State.stmtAt
  rw [h]

/-! ## C4 -/

/-- C4 counterexample: a cached plan stored with its statement's
`use_labels` flag off.  One (successful) iteration of an unspoiled Result
over its key flips the flag on the statement object the stored entry still
references: the stored cache entry is NOT bitwise unchanged from its state
at store time, because `copy.copy` shares the statement and line 185 writes
through it. -/
theorem c4_counterexample :
    stCached.bakeryFind? bqPlain.bakery bqPlain.cacheKey = some ctx0
    ∧ stCached.stmtAt ctx0.stmt = some false
    ∧ (iterate compile0 1 (bqPlain.for_session 7) stCached).2 = .ok [PyVal.int 4]
    ∧ (iterate compile0 1 (bqPlain.for_session 7) stCached).1.stmtAt ctx0.stmt = some true :=
  ⟨rfl, rfl, rfl, rfl⟩

/-- C4 as amended: a successful iteration of an unspoiled Result whose key
is in the bakery writes to no bakery, leaves the stored attribute bag
untouched (the restore pass works on the fresh copy), and touches no
statement object other than the stored context's — but label forcing writes
through the shared statement reference, setting the stored statement's
`use_labels` to true.  Apart from that idempotent flag write the stored
entry is unchanged. -/
theorem c4_amended_iteration_effects (compile : Query → Except Err CompileOut)
    (fuel : Nat) (r : ResultObj) (st : State) (rows : List PyVal)
    (ctx : QueryContext) (b0 : Bool)
    (hsp : r.bq.spoiled = false)
    (hfind : st.bakeryFind? r.bq.bakery r.bq.cacheKey = some ctx)
    (hstmt : st.stmtAt ctx.stmt = some b0)
    (hfresh : ctx.attrs ≠ st.next)
    (hok : (iterate compile fuel r st).2 = .ok rows) :
    (iterate compile fuel r st).1.bakeries = st.bakeries
    ∧ (iterate compile fuel r st).1.dictAt? ctx.attrs = st.dictAt? ctx.attrs
    ∧ (iterate compile fuel r st).1.stmtAt ctx.stmt = some true
    ∧ ∀ sr, sr ≠ ctx.stmt → (iterate compile fuel r st).1.stmtAt sr = st.stmtAt sr := by
  revert hok
  unfold iterate
  dsimp only
  rw [if_neg (by rw [hsp]; simp)]
  rw [hfind]
  dsimp only [Option.isSome]
  rw [if_pos rfl]
  dsimp only
  rw [hfind]
  dsimp only
  split
  next st3 e hequ => intro hok; exact absurd hok (by simp)
  next st3 u hequ =>
    intro _
    dsimp only
    have hb : st3.bakeries = st.bakeries := by
      have h1 := congrArg (fun x : State × Except Err Unit => x.1.bakeries) hequ
      simp only at h1
      rw [← h1, unbake_bakeries]
      rfl
    have hs : st3.heap.stmts = st.heap.stmts := by
      have h1 := congrArg (fun x : State × Except Err Unit => x.1.heap.stmts) hequ
      simp only at h1
      rw [← h1, unbake_stmts]
      rfl
    have hd : st3.dictAt? ctx.attrs = st.dictAt? ctx.attrs := by
      have h1 := congrArg (fun x : State × Except Err Unit => x.1.dictAt? ctx.attrs) hequ
      simp only at h1
      rw [← h1, unbake_dicts_ne _ _ _ _ _
        (show ctx.attrs ≠ (st.allocDict (st.dictAt ctx.attrs)).1 from hfresh)]
      exact dictAt?_allocDict_ne st _ _ hfresh
    refine ⟨hb, hd, ?_, ?_⟩
    · exact stmtAt_stmtSet_self st3 ctx.stmt true b0 ((stmtAt_congr st st3 hs ctx.stmt).trans hstmt)
    · intro sr hsr
      exact (stmtAt_stmtSet_ne st3 ctx.stmt sr true hsr).trans (stmtAt_congr st st3 hs sr)

/-- C4 witness for the amended statement: the hypotheses hold at the
concrete cached state and the bakery mapping is untouched by the iteration. -/
theorem c4_witness :
    ((bqPlain.for_session 7).bq.spoiled = false
      ∧ stCached.bakeryFind? (bqPlain.for_session 7).bq.bakery
          (bqPlain.for_session 7).bq.cacheKey = some ctx0
      ∧ stCached.stmtAt ctx0.stmt = some false
      ∧ ctx0.attrs ≠ stCached.next
      ∧ (iterate compile0 1 (bqPlain.for_session 7) stCached).2 = .ok [PyVal.int 4])
    ∧ (iterate compile0 1 (bqPlain.for_session 7) stCached).1.bakeries = stCached.bakeries :=
  ⟨⟨rfl, rfl, rfl, by decide, rfl⟩,
    (c4_amended_iteration_effects compile0 1 (bqPlain.for_session 7) stCached
      [PyVal.int 4] ctx0 false rfl rfl rfl (by decide) rfl).1⟩

/-! ## C6 -/

/-- C6 failing-input evaluation: with two tuples in the registry, the
restore pass places under the FIRST tuple's path key a Result carrying the
first tuple's nested cache key, the live session and the live parameters —
but a Result whose step, when invoked, yields the SECOND (last) tuple's
query rebound to the session: the line-140 lambda late-binds the loop
variable `query`, so it is not restored to its own tuple's query. -/
theorem c6_late_binding :
    ((unbake 5 [("x", PyVal.int 1)] 0 c6state).1.dictAt 0).get? c6k1
      = some (AttrVal.res (((restoredBQ c6q2 c6ck1).for_session 5).params [("x", PyVal.int 1)]))
    ∧ (restoredBQ c6q2 c6ck1).cacheKey = c6ck1
    ∧ (restoredBQ c6q2 c6ck1).steps0.run 5 = .ok (c6q2.with_session (some 5))
    ∧ c6q2.with_session (some 5) ≠ c6q1.with_session (some 5) :=
  ⟨rfl, rfl, rfl, by decide⟩

/-! ## C7 -/

/-- C7: `first` forks the pipeline with the limit-to-first-row step — the
slice step maps a query to one keeping only the first row of its denotation
— iterates the fork, and returns its first row, or the absence value `none`
on an empty result, never an error for zero rows; `one` yields the single
row of a singleton result, NoResultFound on an empty result, and
MultipleResultsFound on two or more rows. -/
theorem c7_first_one (compile : Query → Except Err CompileOut) (fuel : Nat)
    (r : ResultObj) (st : State) (rows : List PyVal)
    (hit : (iterate compile fuel r st).2 = .ok rows) :
    (ResultObj.first compile fuel r st).2
      = ((iterate compile fuel
            (((r.bq.with_criteria sliceStep []).for_session r.sess).params r.rparams) st).2).map
          (fun ret => ret.head?)
    ∧ (∀ q, sliceStep.run q = .ok { q with rows := q.rows.take 1 })
    ∧ (ResultObj.one compile fuel r st).2
        = (match rows with
           | [] => .error Err.noResultFound
           | [x] => .ok x
           | _ :: _ :: _ => .error Err.multipleResultsFound) := by
  refine ⟨?_, fun q => rfl, ?_⟩
  · unfold ResultObj.first
    dsimp only
    split
    next st' e heq =>
      rw [heq]
      rfl
    next st' ret heq =>
      rw [heq]
      by_cases h : 0 < ret.length
      · rw [dif_pos h]
        cases ret with
        | nil => simp at h
        | cons a t => rfl
      · rw [dif_neg h]
        cases ret with
        | nil => rfl
        | cons a t => simp at h
  · unfold ResultObj.one
    split
    next st' e heq =>
      rw [heq] at hit
      exact absurd hit (by simp)
    next st' ret heq =>
      rw [heq] at hit
      have hr : ret = rows := Except.ok.inj hit
      subst hr
      cases ret with
      | nil => rfl
      | cons a t =>
        cases t with
        | nil => rfl
        | cons b t2 => rfl

/-- C7 witness: a concrete Result with an empty row set: iteration returns
zero rows, and `one` raises NoResultFound. -/
theorem c7_witness :
    (iterate compile0 1 (bqEmptySpoiled.for_session 3) st0).2 = .ok []
    ∧ (ResultObj.one compile0 1 (bqEmptySpoiled.for_session 3) st0).2
        = .error Err.noResultFound :=
  ⟨rfl, (c7_first_one compile0 1 (bqEmptySpoiled.for_session 3) st0 [] rfl).2.2⟩

/-! ## C8 -/

/-- Every member of the `nones` set is a primary-key column. -/
theorem mem_nonesOf_mem_pk (pk : List String) (ident : List PyVal) (x : String)
    (h : x ∈ nonesOf pk ident) : x ∈ pk := by
  unfold nonesOf at h
  obtain ⟨cv, hcv, hx⟩ := List.mem_filterMap.mp h
  split at hx
  · have hcx : cv.1 = x := Option.some.inj hx
    rw [← hcx]
    exact (List.of_mem_zip hcv).1
  · exact absurd hx (by simp)

/-- With distinct primary-key columns, testing membership in the `nones`
set marks exactly the None positions of the zipped identity. -/
theorem nones_marks_zip (pk : List String) :
    ∀ (ident : List PyVal), pk.Nodup →
      pk.map (fun c =>
        if (nonesOf pk ident).contains c then PredAtom.isNull c
        else PredAtom.eqParam c c)
      = (pk.zip ident).map (fun cv =>
          if cv.2 = PyVal.pynone then PredAtom.isNull cv.1
          else PredAtom.eqParam cv.1 cv.1)
      ∨ ident.length < pk.length := by
  induction pk with
  | nil => intro ident _; exact Or.inl rfl
  | cons c pkt ih =>
    intro ident nd
    cases ident with
    | nil => exact Or.inr (by simp)
    | cons v it =>
      have nd1 : ¬ c ∈ pkt := (List.nodup_cons.mp nd).1
      have nd2 : pkt.Nodup := (List.nodup_cons.mp nd).2
      rcases ih it nd2 with hih | hshort
      · refine Or.inl ?_
        by_cases hv : v = PyVal.pynone
        · have hn : nonesOf (c :: pkt) (v :: it) = c :: nonesOf pkt it := by
            unfold nonesOf
            simp [List.zip_cons_cons, List.filterMap_cons, hv]
          rw [hn, List.zip_cons_cons, List.map_cons, List.map_cons]
          have hhead : ((c :: nonesOf pkt it).contains c) = true := by simp
          rw [hhead]
          simp only [if_true]
          rw [if_pos (show ((c, v).2 = PyVal.pynone) from hv)]
          have htail : pkt.map (fun x =>
              if ((c :: nonesOf pkt it).contains x) = true then PredAtom.isNull x
              else PredAtom.eqParam x x)
              = pkt.map (fun x =>
                if ((nonesOf pkt it).contains x) = true then PredAtom.isNull x
                else PredAtom.eqParam x x) := by
            refine List.map_congr_left ?_
            intro x hxm
            have hne : x ≠ c := fun he => nd1 (he ▸ hxm)
            have : ((c :: nonesOf pkt it).contains x) = ((nonesOf pkt it).contains x) := by
              simp [hne]
            rw [this]
          rw [htail, hih]
        · have hn : nonesOf (c :: pkt) (v :: it) = nonesOf pkt it := by
            unfold nonesOf
            simp [List.zip_cons_cons, List.filterMap_cons, hv]
          rw [hn, List.zip_cons_cons, List.map_cons, List.map_cons]
          have hhead : ((nonesOf pkt it).contains c) = false := by
            cases hcase : ((nonesOf pkt it).contains c) with
            | false => rfl
            | true =>
              have h1 : c ∈ nonesOf pkt it := by simpa using hcase
              exact absurd (mem_nonesOf_mem_pk pkt it c h1) nd1
          rw [hhead]
          simp only [Bool.false_eq_true, if_false]
          rw [if_neg (show ¬ ((c, v).2 = PyVal.pynone) from hv)]
          rw [hih]
      · exact Or.inr (by simpa using Nat.succ_lt_succ hshort)

/-- The null-adaptation of the identity template tests each column against
the `nones` set. -/
theorem adapt_get_clause (m : Mapper) (nones : List String) :
    adapt_criterion_to_null m.get_clause nones
      = m.primary_key.map (fun c =>
          if nones.contains c then PredAtom.isNull c else PredAtom.eqParam c c) := by
  unfold adapt_criterion_to_null Mapper.get_clause
  rw [List.map_map]
  rfl

/-- Without a None component, the identity template is already the zipped
shape: every position is an equality. -/
theorem get_clause_zip (pk : List String) :
    ∀ (ident : List PyVal), ident.contains PyVal.pynone = false →
      pk.length = ident.length →
      pk.map (fun c => PredAtom.eqParam c c)
        = (pk.zip ident).map (fun cv =>
            if cv.2 = PyVal.pynone then PredAtom.isNull cv.1
            else PredAtom.eqParam cv.1 cv.1) := by
  induction pk with
  | nil => intro ident _ _; rfl
  | cons c pkt ih =>
    intro ident hnc hl
    cases ident with
    | nil => simp at hl
    | cons v it =>
      have hmem : ¬ PyVal.pynone ∈ v :: it := by simpa using hnc
      have hv : v ≠ PyVal.pynone := fun he => hmem (by rw [he]; exact List.mem_cons_self _ _)
      have h2 : it.contains PyVal.pynone = false := by
        have : ¬ PyVal.pynone ∈ it := fun hm => hmem (List.mem_cons_of_mem v hm)
        simpa using this
      rw [List.zip_cons_cons, List.map_cons, List.map_cons]
      rw [if_neg (show ¬ ((c, v).2 = PyVal.pynone) from hv)]
      rw [ih it h2 (by simpa using hl)]

/-- C8: the identity-lookup BakedQuery's cache key encodes, per primary-key
position, whether the identity value is None: same-length identities with
different None-masks get different cache keys, while the key depends on the
identity values only through the mask (same mask, same key); the generated
criterion has IS NULL exactly at the None positions and an
equality-against-parameter elsewhere; and the identity values themselves are
bound as parameters keyed by column, not placed in the key. -/
theorem c8_identity_cache_key (r : ResultObj) (m : Mapper)
    (ident1 ident2 : List PyVal) (q : Query)
    (hmask : identMask ident1 ≠ identMask ident2)
    (hnd : m.primary_key.Nodup)
    (hpk : m.primary_key.length = ident1.length) :
    (r.identBQ m ident1).cacheKey ≠ (r.identBQ m ident2).cacheKey
    ∧ (∀ ident3, identMask ident3 = identMask ident1 →
        (r.identBQ m ident3).cacheKey = (r.identBQ m ident1).cacheKey)
    ∧ ((setupStep m ident1).run q).map Query.criterion
        = .ok ((m.primary_key.zip ident1).map (fun cv =>
            if cv.2 = PyVal.pynone then PredAtom.isNull cv.1
            else PredAtom.eqParam cv.1 cv.1))
    ∧ identParams m ident1 = (ident1.zip m.primary_key).map (fun ip => (ip.2, ip.1)) := by
  have hkey : ∀ ident : List PyVal, (r.identBQ m ident).cacheKey
      = (r.bq.cacheKey ++ [PyVal.str bakedPy, PyVal.int 230]) ++ identMask ident :=
    fun ident => rfl
  refine ⟨?_, ?_, ?_, rfl⟩
  · intro he
    rw [hkey ident1, hkey ident2] at he
    exact hmask (List.append_cancel_left he)
  · intro ident3 h3
    rw [hkey ident3, hkey ident1, h3]
  · have hrun : ((setupStep m ident1).run q).map Query.criterion
        = .ok (if ident1.contains PyVal.pynone then
            adapt_criterion_to_null m.get_clause (nonesOf m.primary_key ident1)
          else m.get_clause) := rfl
    rw [hrun]
    by_cases hc : ident1.contains PyVal.pynone = true
    · rw [if_pos hc, adapt_get_clause]
      rcases nones_marks_zip m.primary_key ident1 hnd with hz | hshort
      · rw [hz]
      · rw [hpk] at hshort
        exact absurd hshort (lt_irrefl _)
    · have hc' : ident1.contains PyVal.pynone = false := Bool.eq_false_iff.mpr hc
      rw [if_neg hc]
      have hg : m.get_clause = m.primary_key.map (fun c => PredAtom.eqParam c c) := rfl
      rw [hg, get_clause_zip m.primary_key ident1 hc' hpk]

/-- C8 witness: identities `(7, None)` and `(7, 5)` over a two-column
primary key: different cache keys; the predicate for `(7, None)` is an
equality on the first column and IS NULL on the second. -/
theorem c8_witness :
    (identMask [PyVal.int 7, PyVal.pynone] ≠ identMask [PyVal.int 7, PyVal.int 5]
      ∧ m8.primary_key.Nodup
      ∧ m8.primary_key.length = ([PyVal.int 7, PyVal.pynone] : List PyVal).length)
    ∧ ((bqPlain.for_session 7).identBQ m8 [PyVal.int 7, PyVal.pynone]).cacheKey
        ≠ ((bqPlain.for_session 7).identBQ m8 [PyVal.int 7, PyVal.int 5]).cacheKey
    ∧ ((setupStep m8 [PyVal.int 7, PyVal.pynone]).run q0).map Query.criterion
        = .ok [PredAtom.eqParam "a" "a", PredAtom.isNull "b"] := by
  have h := c8_identity_cache_key (bqPlain.for_session 7) m8
    [PyVal.int 7, PyVal.pynone] [PyVal.int 7, PyVal.int 5] q0
    (by decide) (by decide) (by decide)
  exact ⟨⟨by decide, by decide, by decide⟩, h.1, h.2.2.1⟩

end BakedSpec
